import Mathlib

/-
Verification of the chunked transcription pipeline of the aitext repository.

The embedding below translates the pipeline code into Lean:
- the server transcription route (audio extraction, size-gated splitting into
  30-minute chunks via ffmpeg, sequential per-chunk transcription, joining,
  temp-file cleanup),
- the client uploader (sample-buffer splitting into 5-minute chunks, WAV
  encoding, per-chunk transcription, joining),
- the readiness-polling route (wait for the uploaded file to become ACTIVE).

External effects (ffmpeg/ffprobe invocations, the existsSync test, the backend
HTTP responses) are abstracted as explicit oracle parameters, so every
definition is executable and every branch of the source is represented.
-/

namespace AIText

/-- Maximum raw chunk size in bytes, from the route constant
MAX_CHUNK_BYTES = 15 * 1024 * 1024. -/
def MAX_CHUNK_BYTES : ℕ := 15 * 1024 * 1024

/-- Minutes of audio per server-side chunk, from the route constant
CHUNK_MINUTES = 30. -/
def CHUNK_MINUTES : ℕ := 30

/-- Server-side chunk duration in seconds: chunkDuration = CHUNK_MINUTES * 60
inside splitAudio.  Durations are modelled as rationals because the source
obtains totalDuration from ffprobe as a decimal number. -/
def chunkDuration : ℚ := CHUNK_MINUTES * 60

/-- Planned number of chunks: numChunks = Math.ceil(totalDuration / chunkDuration). -/
def numChunks (totalDuration : ℚ) : ℕ := ⌈totalDuration / chunkDuration⌉₊

/-- Start of chunk i's time window: startTime = i * chunkDuration
(the -ss argument of the per-chunk ffmpeg invocation). -/
def chunkStart (i : ℕ) : ℚ := i * chunkDuration

/-- End of chunk i's time window: the ffmpeg invocation reads chunkDuration
seconds from startTime (-t), clipped at the end of the source audio, so the
carved window is [i * chunkDuration, min ((i+1) * chunkDuration) totalDuration). -/
def chunkEnd (totalDuration : ℚ) (i : ℕ) : ℚ :=
  min ((i + 1) * chunkDuration) totalDuration

/-- A segment returned by splitAudio: either the original audio file used
verbatim (the audioPath returned unchanged by the under-budget branch) or the
re-encoded chunk file with the given plan index. -/
inductive Seg where
  | whole : Seg
  | chunk (i : ℕ) : Seg
deriving DecidableEq

/-- splitAudio from the server route.  audioSize is the stat size of the
extracted audio; if it is within MAX_CHUNK_BYTES the original file is returned
as the single segment.  Otherwise the route plans numChunks chunks and keeps
chunk i exactly when its output file exists afterwards; the oracle mat i
stands for that existsSync check.  This pure form assumes every per-chunk
ffmpeg invocation returns (the throwing case is covered by splitAudioRun
below). -/
def splitAudio (audioSize : ℕ) (totalDuration : ℚ) (mat : ℕ → Bool) : List Seg :=
  if audioSize ≤ MAX_CHUNK_BYTES then [Seg.whole]
  else ((List.range (numChunks totalDuration)).filter mat).map Seg.chunk

/-- Seconds of audio per client-side chunk, from the uploader constant
CHUNK_SECONDS = 5 * 60. -/
def CHUNK_SECONDS : ℕ := 5 * 60

/-- Loop of splitAudioBuffer from the client uploader: starting at offset, carve
a chunk of length min chunkSamples (totalSamples - offset) and advance by
chunkSamples while offset < totalSamples.  Each returned pair (offset, length)
stands for the chunk holding samples [offset, offset + length) of the source
buffer.  The conjunct 0 < chunkSamples only rules out the degenerate
non-terminating loop; every call site uses chunkSamples = chunkSeconds *
sampleRate > 0. -/
def splitAudioBufferGo (totalSamples chunkSamples offset : ℕ) : List (ℕ × ℕ) :=
  if _h : offset < totalSamples ∧ 0 < chunkSamples then
    (offset, min chunkSamples (totalSamples - offset)) ::
      splitAudioBufferGo totalSamples chunkSamples (offset + chunkSamples)
  else []
termination_by totalSamples - offset
decreasing_by omega

/-- splitAudioBuffer from the client uploader: chunkSamples = chunkSeconds *
sampleRate, then the carving loop from offset 0. -/
def splitAudioBuffer (totalSamples sampleRate chunkSeconds : ℕ) : List (ℕ × ℕ) :=
  splitAudioBufferGo totalSamples (chunkSeconds * sampleRate) 0

/-- Ceiling-division chunk count of the sample-level splitter, the natural
number form of Math.ceil(totalSamples / chunkSamples). -/
def numChunksSamples (totalSamples chunkSamples : ℕ) : ℕ :=
  (totalSamples + chunkSamples - 1) / chunkSamples

/-- The fixed paragraph break placed between segment results:
results.join with separator "\n\n" in both the server route and the client. -/
def SEPARATOR : String := "\n\n"

/-- joinResults: the join of the per-segment texts, with JS
Array.prototype.join semantics (empty string for an empty array, otherwise the
first element followed by separator-element pairs in order). -/
def joinResults : List String → String
  | [] => ""
  | t :: ts => ts.foldl (fun acc r => acc ++ SEPARATOR ++ r) t

/-- Ordered concatenation of a list of strings (used to state what joinResults
produces). -/
def concatStrings (l : List String) : String := l.foldr (fun a b => a ++ b) ""

/-- The initial prompt PROMPT of the server route and client uploader, line for
line as the source builds it. -/
def PROMPT : String :=
  "この音声を文字起こししてください。以下のルールに従ってください：\n" ++
  "- タイムスタンプは不要\n" ++
  "- 話者の区別は不要\n" ++
  "- 「あー」「えー」「まあ」「えっと」などのフィラー（つなぎ言葉）はすべて省いてください\n" ++
  "- 内容を省略せず、すべての発言を書き起こしてください\n" ++
  "- 整った読みやすい文章として出力してください"

/-- The continuation prompt PROMPT_CONTINUATION, line for line as the source
builds it. -/
def PROMPT_CONTINUATION : String :=
  "この音声は長い音声の続きです。前のパートに続けて文字起こししてください。以下のルールに従ってください：\n" ++
  "- タイムスタンプは不要\n" ++
  "- 話者の区別は不要\n" ++
  "- 「あー」「えー」「まあ」「えっと」などのフィラー（つなぎ言葉）はすべて省いてください\n" ++
  "- 内容を省略せず、すべての発言を書き起こしてください\n" ++
  "- 整った読みやすい文章として出力してください\n" ++
  "- 前のパートとの接続は気にせず、この音声の内容だけを書き起こしてください"

/-- Prompt rule line: omit timestamps. -/
def RULE_NO_TIMESTAMPS : String := "- タイムスタンプは不要"

/-- Prompt rule line: omit speaker labels. -/
def RULE_NO_SPEAKERS : String := "- 話者の区別は不要"

/-- Prompt rule line: strip filler words. -/
def RULE_STRIP_FILLERS : String :=
  "- 「あー」「えー」「まあ」「えっと」などのフィラー（つなぎ言葉）はすべて省いてください"

/-- Prompt rule line: omit no spoken content. -/
def RULE_OMIT_NOTHING : String := "- 内容を省略せず、すべての発言を書き起こしてください"

/-- Prompt rule line: produce normalized readable prose. -/
def RULE_CLEAN_PROSE : String := "- 整った読みやすい文章として出力してください"

/-- Continuation-only rule line: do not stitch context with the previous part,
transcribe only this audio. -/
def RULE_NO_STITCHING : String :=
  "- 前のパートとの接続は気にせず、この音声の内容だけを書き起こしてください"

/-- Prompt chosen by transcribeChunk: the isFirstChunk argument selects PROMPT,
otherwise PROMPT_CONTINUATION. -/
def transcribeChunkPrompt (isFirstChunk : Bool) : String :=
  if isFirstChunk then PROMPT else PROMPT_CONTINUATION

/-- Prompt used for segment i: the transcription loop passes i == 0 as
isFirstChunk. -/
def promptForSegment (i : ℕ) : String := transcribeChunkPrompt (i == 0)

/-- Fallback error message used when the backend error object carries no
message. -/
def TRANSCRIBE_FAIL_MSG : String := "文字起こしに失敗しました。"

/-- Placeholder text used when the backend returns no candidate text. -/
def EMPTY_RESULT_MSG : String := "文字起こし結果を取得できませんでした。"

/-- One backend reply to a generateContent call: the HTTP ok flag, the optional
error message data.error.message, and the optional candidate text
data.candidates[0].content.parts[0].text. -/
structure GeminiResponse where
  ok : Bool
  errMsg : Option String
  candidateText : Option String

/-- transcribeChunk from the server route: one generateContent call; a non-ok
reply throws the backend message (or the fixed fallback), an ok reply returns
the candidate text (or the fixed placeholder). -/
def transcribeChunk (r : GeminiResponse) : Except String String :=
  if r.ok then Except.ok (r.candidateText.getD EMPTY_RESULT_MSG)
  else Except.error (r.errMsg.getD TRANSCRIBE_FAIL_MSG)

/-- Observable trace of the per-segment transcription step: how many
generateContent attempts were made, how many inter-attempt sleeps happened,
and the final outcome. -/
structure AttemptTrace where
  attempts : ℕ
  sleeps : ℕ
  result : Except String String

/-- Per-segment transcription exactly as the route performs it: the POST
handler's chunk loop calls transcribeChunk once, with no surrounding retry
loop and no sleep, so the trace makes a single attempt and consults only the
backend's reply to attempt 0.  The backend argument gives the reply the
backend would produce for each attempt number. -/
def transcribeChunkRun (backend : ℕ → GeminiResponse) : AttemptTrace :=
  { attempts := 1, sleeps := 0, result := transcribeChunk (backend 0) }

/-- Error thrown by waitForFileActive when the file state becomes FAILED. -/
def FILE_FAILED_MSG : String := "ファイルの処理に失敗しました。"

/-- Error thrown by waitForFileActive when maxAttempts polls pass without the
state becoming ACTIVE. -/
def FILE_TIMEOUT_MSG : String := "ファイルの処理がタイムアウトしました。"

/-- Poll budget of waitForFileActive: maxAttempts = 60. -/
def maxAttempts : ℕ := 60

/-- Outcome of the readiness waiter, tracking the number of status polls
performed. -/
inductive WaitOutcome where
  | ready (polls : ℕ)
  | failed (polls : ℕ) (msg : String)
  | timedOut (msg : String)
deriving DecidableEq

/-- Polling loop of waitForFileActive: at iteration i (with the given number
of remaining iterations) fetch the file state; ACTIVE returns, FAILED throws
the failure message immediately, anything else sleeps the fixed 5000 ms
interval and continues; an exhausted budget throws the timeout message.  The
oracle state gives the backend state string returned by poll number i. -/
def waitForFileActiveGo (state : ℕ → String) (i : ℕ) : ℕ → WaitOutcome
  | 0 => WaitOutcome.timedOut FILE_TIMEOUT_MSG
  | remaining + 1 =>
    if state i = "ACTIVE" then WaitOutcome.ready (i + 1)
    else if state i = "FAILED" then WaitOutcome.failed (i + 1) FILE_FAILED_MSG
    else waitForFileActiveGo state (i + 1) remaining

/-- waitForFileActive from the upload-and-reference route: poll from attempt 0
with a budget of maxAttempts. -/
def waitForFileActive (state : ℕ → String) : WaitOutcome :=
  waitForFileActiveGo state 0 maxAttempts

/-- The upload-and-reference POST handler after input validation: wait for the
file to become ACTIVE, then run the single transcription call; any thrown
message is caught and returned as the error payload, success returns the
transcript together with the chunk count 1. -/
def postTranscribeRoute (state : ℕ → String) (tr : Except String String) :
    Except String (String × ℕ) :=
  match waitForFileActive state with
  | WaitOutcome.ready _ =>
    match tr with
    | Except.ok t => Except.ok (t, 1)
    | Except.error e => Except.error e
  | WaitOutcome.failed _ m => Except.error m
  | WaitOutcome.timedOut m => Except.error m

/-- Rejection message of the server route's MIME gate: the declared type must
start with video/. -/
def MIME_ERROR_MSG : String := "動画ファイル（MP4等）をアップロードしてください。"

/-- Stand-in for the message of the error thrown by a failing audio-extraction
ffmpeg invocation (the source surfaces the exec error's own message). -/
def EXTRACT_FAIL_MSG : String := "ffmpeg: audio extraction failed"

/-- Stand-in for the message of the error thrown by a failing ffprobe duration
probe. -/
def PROBE_FAIL_MSG : String := "ffprobe: duration probe failed"

/-- Stand-in for the message of the error thrown by a failing per-chunk ffmpeg
invocation inside splitAudio. -/
def CHUNK_ENCODE_FAIL_MSG : String := "ffmpeg: chunk encoding failed"

/-- JS String.prototype.startsWith, used by the MIME gates. -/
def startsWithStr (s pre : String) : Bool := pre.data.isPrefixOf s.data

/-- Client-side handleFile gate: a selected file is rejected exactly when its
declared type starts with neither video/ nor audio/. -/
def handleFileAccepts (mime : String) : Bool :=
  !(!(startsWithStr mime "video/") && !(startsWithStr mime "audio/"))

/-- The temporary media files a request can create: the saved video, the
extracted audio, and the per-chunk output files. -/
inductive TempPath where
  | video
  | audio
  | chunk (i : ℕ)
deriving DecidableEq

/-- File effect of a returned segment's registration in tempFiles: the route
appends chunkPaths filtered by p !== audioPath, so the whole-audio segment
(the audioPath itself, already registered) contributes nothing and a chunk
segment contributes its chunk file. -/
def segTempPath : Seg → Option TempPath
  | Seg.whole => none
  | Seg.chunk i => some (TempPath.chunk i)

/-- File-effect view of splitAudio's chunk loop over the plan indices: the
per-chunk ffmpeg invocation at index i returns normally iff encodeOk i (a
failing invocation throws, aborting the loop and losing the chunkPaths list
while the files already produced stay on disk); a normal invocation leaves
chunk i on disk iff mat i (the existsSync test), and exactly those chunks are
pushed to chunkPaths.  Returns the chunk files created on disk together with
the loop's outcome. -/
def splitLoop (mat encodeOk : ℕ → Bool) :
    List ℕ → List TempPath × Except String (List Seg)
  | [] => ([], Except.ok [])
  | i :: rest =>
    if encodeOk i then
      let produced := if mat i then [TempPath.chunk i] else []
      let tail := splitLoop mat encodeOk rest
      (produced ++ tail.1,
        tail.2.map (fun segs => if mat i then Seg.chunk i :: segs else segs))
    else ([], Except.error CHUNK_ENCODE_FAIL_MSG)

/-- splitAudio with its file effects and failure paths: within budget the
original audio is the single segment and no chunk file is created; over budget
the ffprobe duration probe runs (probeOk), then the chunk loop over the
numChunks plan indices. -/
def splitAudioRun (audioSize : ℕ) (totalDuration : ℚ) (probeOk : Bool)
    (mat encodeOk : ℕ → Bool) : List TempPath × Except String (List Seg) :=
  if audioSize ≤ MAX_CHUNK_BYTES then ([], Except.ok [Seg.whole])
  else if probeOk then splitLoop mat encodeOk (List.range (numChunks totalDuration))
  else ([], Except.error PROBE_FAIL_MSG)

/-- Sequential transcription loop of the server route, from loop index i with
the given number of segments left: each iteration makes one transcribeChunk
call; an error aborts the loop (the throw propagates to the catch block),
success accumulates the text in order. -/
def transcribeAllGo (backend : ℕ → GeminiResponse) : ℕ → ℕ → Except String (List String)
  | _, 0 => Except.ok []
  | i, k + 1 =>
    match transcribeChunk (backend i) with
    | Except.error e => Except.error e
    | Except.ok t => (transcribeAllGo backend (i + 1) k).map (fun ts => t :: ts)

/-- Transcribe all n segments sequentially from index 0.  The backend oracle
gives the reply to the call for loop index i. -/
def transcribeAll (backend : ℕ → GeminiResponse) (n : ℕ) : Except String (List String) :=
  transcribeAllGo backend 0 n

/-- Result payload of the server route: transcription plus chunk count on
success, a single error string on failure. -/
inductive ApiResult where
  | success (transcription : String) (chunks : ℕ)
  | failure (error : String)
deriving DecidableEq

/-- Trace of one request through the server POST handler: the JSON result, the
temporary files the request created on disk, and the contents of the tempFiles
registry when the finally block runs. -/
structure PostRun where
  result : ApiResult
  created : List TempPath
  tempFiles : List TempPath

/-- The server POST handler: MIME gate (reject unless the declared type starts
with video/, before any file is created), then register videoPath and
audioPath in tempFiles and write the video, extract audio (extractOk), split
(splitAudioRun), register the returned chunk paths (filtered by
p !== audioPath), transcribe each chunk sequentially, and join the results.
Thrown errors are caught and returned as the error payload.  The created and
tempFiles lists record the state seen by the finally block, which deletes
every path registered in tempFiles. -/
def postRun (mime : String) (extractOk probeOk : Bool) (audioSize : ℕ)
    (totalDuration : ℚ) (mat encodeOk : ℕ → Bool)
    (backend : ℕ → GeminiResponse) : PostRun :=
  if ¬ startsWithStr mime "video/" then
    { result := ApiResult.failure MIME_ERROR_MSG, created := [], tempFiles := [] }
  else if ¬ extractOk then
    { result := ApiResult.failure EXTRACT_FAIL_MSG,
      created := [TempPath.video],
      tempFiles := [TempPath.video, TempPath.audio] }
  else
    match splitAudioRun audioSize totalDuration probeOk mat encodeOk with
    | (chunkFiles, Except.error e) =>
      { result := ApiResult.failure e,
        created := TempPath.video :: TempPath.audio :: chunkFiles,
        tempFiles := [TempPath.video, TempPath.audio] }
    | (chunkFiles, Except.ok segs) =>
      let registered := [TempPath.video, TempPath.audio] ++ segs.filterMap segTempPath
      match transcribeAll backend segs.length with
      | Except.error e =>
        { result := ApiResult.failure e,
          created := TempPath.video :: TempPath.audio :: chunkFiles,
          tempFiles := registered }
      | Except.ok texts =>
        { result := ApiResult.success (joinResults texts) segs.length,
          created := TempPath.video :: TempPath.audio :: chunkFiles,
          tempFiles := registered }

/-- Temporary files still on disk after the finally block: everything created
but not registered in tempFiles (deletion of a registered path is attempted on
every exit path; a failed unlink of a missing file is ignored). -/
def leftoverFiles (r : PostRun) : List TempPath :=
  r.created.filter (fun p => decide (¬ p ∈ r.tempFiles))

/-- Two little-endian bytes of a 16-bit write. -/
def u16le (v : ℕ) : List ℕ := [v % 256, v / 256 % 256]

/-- Four little-endian bytes of a 32-bit write. -/
def u32le (v : ℕ) : List ℕ := [v % 256, v / 256 % 256, v / 65536 % 256, v / 16777216 % 256]

/-- Bytes written by writeString: one byte per character code. -/
def asciiBytes (s : String) : List ℕ := s.data.map Char.toNat

/-- The 44-byte WAV header written by audioBufferToWav, field for field:
RIFF, totalLength - 8, WAVE, fmt with subchunk size 16, PCM format 1, channel
count, sample rate, byte rate, block align, 16 bits per sample, data, data
length. -/
def wavHeader (numChannels sampleRate dataLength : ℕ) : List ℕ :=
  asciiBytes "RIFF" ++ u32le (44 + dataLength - 8) ++ asciiBytes "WAVE" ++
  asciiBytes "fmt " ++ u32le 16 ++ u16le 1 ++ u16le numChannels ++
  u32le sampleRate ++ u32le (sampleRate * numChannels * 2) ++
  u16le (numChannels * 2) ++ u16le 16 ++ asciiBytes "data" ++ u32le dataLength

/-- Sample clamping of audioBufferToWav: s = Math.max(-1, Math.min(1, sample)).
Sample values are modelled as rationals. -/
def clampSample (s : ℚ) : ℚ := max (-1) (min 1 s)

/-- Scaling of a clamped sample: negative values are scaled by 0x8000 = 32768,
non-negative ones by 0x7fff = 32767. -/
def scaleSample (s : ℚ) : ℚ :=
  if clampSample s < 0 then clampSample s * 32768 else clampSample s * 32767

/-- Truncation toward zero, the ToInteger conversion DataView.setInt16 applies
to its value argument. -/
def truncToInt (q : ℚ) : ℤ := if q < 0 then ⌈q⌉ else ⌊q⌋

/-- The signed 16-bit integer value written for one input sample. -/
def encodeSample (s : ℚ) : ℤ := truncToInt (scaleSample s)

/-- Little-endian bytes of a setInt16 write (two's complement). -/
def i16le (v : ℤ) : List ℕ := u16le ((v % 65536).toNat)

/-- audioBufferToWav from the client uploader: the 44-byte header for
dataLength = 2 * number of samples of channel 0, followed by the clamped,
scaled, truncated 16-bit little-endian encoding of each sample in order. -/
def audioBufferToWav (numChannels sampleRate : ℕ) (samples : List ℚ) : List ℕ :=
  wavHeader numChannels sampleRate (samples.length * 2) ++
  (samples.map (fun s => i16le (encodeSample s))).flatten

/-- Backend reply of the transient not-ready class: the message Gemini returns
while a referenced file is still processing. -/
def notReadyResponse : GeminiResponse :=
  { ok := false,
    errMsg := some "The File is not in an ACTIVE state and usage is not allowed.",
    candidateText := none }

/-- Backend reply of a successful transcription call. -/
def readyResponse : GeminiResponse :=
  { ok := true, errMsg := none, candidateText := some "本文" }

lemma foldl_sep_eq (ts : List String) : ∀ acc : String,
    ts.foldl (fun a r => a ++ SEPARATOR ++ r) acc =
      acc ++ concatStrings (ts.map (fun r => SEPARATOR ++ r)) := by
  induction ts with
  | nil => intro acc; simp [concatStrings, String.append_empty]
  | cons r rs ih =>
    intro acc
    simp only [List.foldl_cons, List.map_cons]
    rw [ih]
    simp only [concatStrings, List.foldr_cons]
    simp [String.append_assoc]

lemma concatStrings_length (l : List String) :
    (concatStrings l).length = (l.map String.length).sum := by
  induction l with
  | nil => rfl
  | cons x xs ih =>
    simp only [concatStrings, List.foldr_cons, List.map_cons, List.sum_cons,
      String.length_append] at *
    omega

lemma sum_len_sep (ts : List String) :
    (ts.map (fun r => (SEPARATOR ++ r).length)).sum =
      2 * ts.length + (ts.map String.length).sum := by
  induction ts with
  | nil => rfl
  | cons x xs ih =>
    have hsep : SEPARATOR.length = 2 := rfl
    simp only [List.map_cons, List.sum_cons, List.length_cons, String.length_append,
      hsep] at *
    omega

/-- C3: joining n segment result texts (n at least 1) yields exactly the texts
in index order separated by the fixed "\n\n" paragraph break: structurally the
head text followed by one separator-prefixed text per remaining result, with
no reordering or merging, and in length the sum of the text lengths plus two
separator characters for each of the n - 1 inserted breaks. -/
theorem joinResults_correct (t : String) (ts : List String) :
    joinResults (t :: ts) = t ++ concatStrings (ts.map (fun r => SEPARATOR ++ r)) ∧
    (joinResults (t :: ts)).length =
      ((t :: ts).map String.length).sum + 2 * ts.length := by
  have h1 : joinResults (t :: ts) =
      t ++ concatStrings (ts.map (fun r => SEPARATOR ++ r)) := by
    simpa [joinResults] using foldl_sep_eq ts t
  refine ⟨h1, ?_⟩
  rw [h1, String.length_append, concatStrings_length, List.map_map]
  have h2 : (String.length ∘ fun r => SEPARATOR ++ r) =
      fun r : String => (SEPARATOR ++ r).length := rfl
  rw [h2, sum_len_sep]
  simp only [List.map_cons, List.sum_cons]
  omega

set_option maxRecDepth 8000 in
/-- C4: segment i is transcribed with the Initial prompt exactly when i = 0 and
with the Continuation prompt for every other i; the Continuation prompt
additionally carries the no-stitching instruction (absent from the Initial
prompt), and both variants carry the rule lines omitting timestamps, omitting
speaker labels, stripping filler words, omitting no spoken content, and
requesting normalized prose. -/
theorem prompt_variant_correct :
    (∀ i : ℕ, promptForSegment i = PROMPT ↔ i = 0) ∧
    (∀ i : ℕ, promptForSegment i = PROMPT_CONTINUATION ↔ i ≠ 0) ∧
    RULE_NO_STITCHING.data <:+: PROMPT_CONTINUATION.data ∧
    ¬ RULE_NO_STITCHING.data <:+: PROMPT.data ∧
    RULE_NO_TIMESTAMPS.data <:+: PROMPT.data ∧
    RULE_NO_TIMESTAMPS.data <:+: PROMPT_CONTINUATION.data ∧
    RULE_NO_SPEAKERS.data <:+: PROMPT.data ∧
    RULE_NO_SPEAKERS.data <:+: PROMPT_CONTINUATION.data ∧
    RULE_STRIP_FILLERS.data <:+: PROMPT.data ∧
    RULE_STRIP_FILLERS.data <:+: PROMPT_CONTINUATION.data ∧
    RULE_OMIT_NOTHING.data <:+: PROMPT.data ∧
    RULE_OMIT_NOTHING.data <:+: PROMPT_CONTINUATION.data ∧
    RULE_CLEAN_PROSE.data <:+: PROMPT.data ∧
    RULE_CLEAN_PROSE.data <:+: PROMPT_CONTINUATION.data := by
  have hne : PROMPT.length ≠ PROMPT_CONTINUATION.length := by decide
  refine ⟨?_, ?_, by decide, by decide, by decide, by decide, by decide, by decide,
    by decide, by decide, by decide, by decide, by decide, by decide⟩
  · intro i
    cases i with
    | zero => simp [promptForSegment, transcribeChunkPrompt]
    | succ n =>
      simp only [promptForSegment, transcribeChunkPrompt]
      have hb : ((n + 1 : ℕ) == 0) = false := by simp
      rw [hb]
      simp only [Bool.false_eq_true, if_false, Nat.succ_ne_zero, iff_false]
      intro h
      exact hne (congrArg String.length h).symm
  · intro i
    cases i with
    | zero =>
      simp only [promptForSegment, transcribeChunkPrompt, beq_self_eq_true,
        if_true, ne_eq, not_true_eq_false, iff_false]
      intro h
      exact hne (congrArg String.length h)
    | succ n =>
      simp only [promptForSegment, transcribeChunkPrompt]
      have hb : ((n + 1 : ℕ) == 0) = false := by simp
      rw [hb]
      simp

/-- C5 counterexample: with a backend that reports the transient not-ready
error on attempt 1 and would succeed on attempt 2, the route makes exactly one
attempt, never sleeps, and surfaces the error — the claimed 10-attempt retry
loop does not exist. -/
theorem no_retry_counterexample :
    (transcribeChunkRun (fun n => if n = 0 then notReadyResponse else readyResponse)).attempts
      = 1 ∧
    (transcribeChunkRun (fun n => if n = 0 then notReadyResponse else readyResponse)).sleeps
      = 0 ∧
    (transcribeChunkRun (fun n => if n = 0 then notReadyResponse else readyResponse)).result
      = Except.error "The File is not in an ACTIVE state and usage is not allowed." ∧
    transcribeChunk ((fun n => if n = 0 then notReadyResponse else readyResponse) 1)
      = Except.ok "本文" := by
  exact ⟨rfl, rfl, rfl, rfl⟩

/-- C5 (amended): the per-segment transcription call is not wrapped in a retry
loop: exactly one generateContent attempt is made per segment with no
sleeping; every non-ok reply — the transient not-ready class included —
immediately surfaces an error carrying the backend message (or the fixed
fallback), an ok reply returns its text, and the outcome depends only on the
backend's reply to the first attempt. -/
theorem transcribe_single_attempt (backend : ℕ → GeminiResponse) :
    (transcribeChunkRun backend).attempts = 1 ∧
    (transcribeChunkRun backend).sleeps = 0 ∧
    ((backend 0).ok = false →
      (transcribeChunkRun backend).result =
        Except.error ((backend 0).errMsg.getD TRANSCRIBE_FAIL_MSG)) ∧
    ((backend 0).ok = true →
      (transcribeChunkRun backend).result =
        Except.ok ((backend 0).candidateText.getD EMPTY_RESULT_MSG)) ∧
    (∀ backend2 : ℕ → GeminiResponse, backend2 0 = backend 0 →
      transcribeChunkRun backend2 = transcribeChunkRun backend) := by
  refine ⟨rfl, rfl, ?_, ?_, ?_⟩
  · intro h; simp [transcribeChunkRun, transcribeChunk, h]
  · intro h; simp [transcribeChunkRun, transcribeChunk, h]
  · intro backend2 h; simp [transcribeChunkRun, h]

/-- Witness for the amended C5 theorem at concrete backends. -/
theorem transcribe_single_attempt_witness :
    (transcribeChunkRun (fun _ => readyResponse)).attempts = 1 ∧
    (transcribeChunkRun (fun _ => readyResponse)).result = Except.ok "本文" ∧
    (transcribeChunkRun (fun _ => notReadyResponse)).result =
      Except.error "The File is not in an ACTIVE state and usage is not allowed." := by
  have h1 := transcribe_single_attempt (fun _ => readyResponse)
  have h2 := transcribe_single_attempt (fun _ => notReadyResponse)
  exact ⟨h1.1, h1.2.2.2.1 rfl, h2.2.2.1 rfl⟩

lemma waitGo_failed (state : ℕ → String) :
    ∀ k i remaining, k < remaining →
      (∀ j, j < k → state (i + j) ≠ "ACTIVE" ∧ state (i + j) ≠ "FAILED") →
      state (i + k) = "FAILED" →
      waitForFileActiveGo state i remaining =
        WaitOutcome.failed (i + k + 1) FILE_FAILED_MSG := by
  intro k
  induction k with
  | zero =>
    intro i remaining hk _ hf
    cases remaining with
    | zero => omega
    | succ r =>
      have hf0 : state i = "FAILED" := by simpa using hf
      simp [waitForFileActiveGo, hf0]
  | succ k ih =>
    intro i remaining hk hprev hf
    cases remaining with
    | zero => omega
    | succ r =>
      have h0 := hprev 0 (Nat.succ_pos k)
      simp only [Nat.add_zero] at h0
      simp only [waitForFileActiveGo]
      rw [if_neg h0.1, if_neg h0.2]
      have hres := ih (i + 1) r (by omega)
        (fun j hj => by
          rw [show i + 1 + j = i + (j + 1) from by omega]
          exact hprev (j + 1) (by omega))
        (by rw [show i + 1 + k = i + (k + 1) from by omega]; exact hf)
      rw [hres]
      congr 1
      omega

lemma waitGo_timeout (state : ℕ → String) :
    ∀ remaining i,
      (∀ j, j < remaining → state (i + j) ≠ "ACTIVE" ∧ state (i + j) ≠ "FAILED") →
      waitForFileActiveGo state i remaining = WaitOutcome.timedOut FILE_TIMEOUT_MSG := by
  intro remaining
  induction remaining with
  | zero => intro i _; rfl
  | succ r ih =>
    intro i h
    have h0 := h 0 (Nat.succ_pos r)
    simp only [Nat.add_zero] at h0
    simp only [waitForFileActiveGo]
    rw [if_neg h0.1, if_neg h0.2]
    exact ih (i + 1) (fun j hj => by
      rw [show i + 1 + j = i + (j + 1) from by omega]
      exact h (j + 1) (by omega))

/-- C6: the readiness waiter polls the backend file state on a fixed interval;
a FAILED state surfaces the failure immediately, after exactly the polls made
so far and with no further polling for that segment; exhausting the 60-attempt
budget without the state becoming ACTIVE surfaces the distinct timeout
message; and either outcome aborts the whole request with that message as its
error payload. -/
theorem readiness_waiter_correct (state : ℕ → String) (k : ℕ)
    (tr : Except String String) :
    (k < maxAttempts →
      (∀ j, j < k → state j ≠ "ACTIVE" ∧ state j ≠ "FAILED") →
      state k = "FAILED" →
      waitForFileActive state = WaitOutcome.failed (k + 1) FILE_FAILED_MSG ∧
      postTranscribeRoute state tr = Except.error FILE_FAILED_MSG) ∧
    ((∀ j, j < maxAttempts → state j ≠ "ACTIVE" ∧ state j ≠ "FAILED") →
      waitForFileActive state = WaitOutcome.timedOut FILE_TIMEOUT_MSG ∧
      postTranscribeRoute state tr = Except.error FILE_TIMEOUT_MSG) ∧
    FILE_TIMEOUT_MSG ≠ FILE_FAILED_MSG := by
  refine ⟨?_, ?_, by decide⟩
  · intro hk hprev hf
    have hw : waitForFileActive state = WaitOutcome.failed (k + 1) FILE_FAILED_MSG := by
      have h := waitGo_failed state k 0 maxAttempts hk
        (fun j hj => by simpa using hprev j hj) (by simpa using hf)
      simpa [waitForFileActive] using h
    exact ⟨hw, by simp [postTranscribeRoute, hw]⟩
  · intro h
    have hw : waitForFileActive state = WaitOutcome.timedOut FILE_TIMEOUT_MSG := by
      have h2 := waitGo_timeout state maxAttempts 0 (fun j hj => by simpa using h j hj)
      simpa [waitForFileActive] using h2
    exact ⟨hw, by simp [postTranscribeRoute, hw]⟩

/-- Witness for the C6 theorem at concrete state oracles. -/
theorem readiness_waiter_correct_witness :
    waitForFileActive (fun _ => "FAILED") = WaitOutcome.failed 1 FILE_FAILED_MSG ∧
    postTranscribeRoute (fun _ => "FAILED") (Except.ok "t") =
      Except.error FILE_FAILED_MSG ∧
    waitForFileActive (fun _ => "PROCESSING") = WaitOutcome.timedOut FILE_TIMEOUT_MSG := by
  have h1 := readiness_waiter_correct (fun _ => "FAILED") 0 (Except.ok "t")
  have h2 := readiness_waiter_correct (fun _ => "PROCESSING") 0 (Except.ok "t")
  have ha := h1.1 (by norm_num [maxAttempts]) (fun j hj => absurd hj (by omega)) rfl
  have hb := h2.2.1 (fun j hj => ⟨by decide, by decide⟩)
  exact ⟨ha.1, ha.2, hb.1⟩

lemma chunkDuration_pos : (0 : ℚ) < chunkDuration := by
  norm_num [chunkDuration, CHUNK_MINUTES]

lemma numChunksSamples_succ {c m : ℕ} (hc : 0 < c) (hm : 0 < m) :
    numChunksSamples m c = numChunksSamples (m - c) c + 1 := by
  unfold numChunksSamples
  rcases le_or_lt m c with h | h
  · have h1 : m - c = 0 := by omega
    rw [h1]
    have h2 : (m + c - 1) / c = 1 := by
      apply Nat.div_eq_of_lt_le <;> omega
    have h3 : (0 + c - 1) / c = 0 := Nat.div_eq_of_lt (by omega)
    omega
  · have h4 : m + c - 1 = (m - c + c - 1) + c := by omega
    rw [h4, Nat.add_div_right _ hc]

lemma splitAudioBufferGo_eq (c : ℕ) (hc : 0 < c) :
    ∀ m t offset, t - offset = m →
      splitAudioBufferGo t c offset =
        (List.range (numChunksSamples (t - offset) c)).map
          (fun k => (offset + k * c, min c (t - (offset + k * c)))) := by
  intro m
  induction m using Nat.strong_induction_on with
  | _ m ih =>
    intro t offset hm
    by_cases hlt : offset < t
    · rw [splitAudioBufferGo, dif_pos ⟨hlt, hc⟩]
      have hm0 : 0 < m := by omega
      have hrec := ih (m - c) (by omega) t (offset + c) (by omega)
      rw [hrec]
      have hsub : t - offset - c = t - (offset + c) := by omega
      have hsucc : numChunksSamples (t - offset) c =
          numChunksSamples (t - (offset + c)) c + 1 := by
        rw [← hsub]
        exact numChunksSamples_succ hc (by omega)
      rw [hsucc, List.range_succ_eq_map, List.map_cons, List.map_map]
      congr 1
      · simp
      · apply List.map_congr_left
        intro k hk
        have harg : offset + c + k * c = offset + (k + 1) * c := by ring
        simp [Function.comp, harg, Nat.succ_eq_add_one]
    · rw [splitAudioBufferGo, dif_neg (fun hcon => hlt hcon.1)]
      have h0 : t - offset = 0 := by omega
      rw [h0]
      have hz : numChunksSamples 0 c = 0 := by
        unfold numChunksSamples
        exact Nat.div_eq_of_lt (by omega)
      simp [hz]

lemma numChunksSamples_eq_ceil (t c : ℕ) (hc : 0 < c) :
    numChunksSamples t c = ⌈(t : ℚ) / (c : ℚ)⌉₊ := by
  have hcq : (0 : ℚ) < (c : ℚ) := by exact_mod_cast hc
  rcases Nat.eq_zero_or_pos t with ht | ht
  · subst ht
    have h0 : numChunksSamples 0 c = 0 := by
      unfold numChunksSamples
      exact Nat.div_eq_of_lt (by omega)
    simp [h0]
  · have hdm := Nat.div_add_mod (t + c - 1) c
    have hmod : (t + c - 1) % c < c := Nat.mod_lt _ hc
    have hn1 : 1 ≤ numChunksSamples t c := by
      unfold numChunksSamples
      rw [Nat.one_le_div_iff hc]
      omega
    have key : t ≤ numChunksSamples t c * c ∧ (numChunksSamples t c - 1) * c < t := by
      unfold numChunksSamples
      rw [Nat.sub_one_mul]
      simp only [mul_comm ((t + c - 1) / c) c]
      generalize hQ : c * ((t + c - 1) / c) = Q at hdm ⊢
      omega
    have hne : numChunksSamples t c ≠ 0 := by omega
    rw [eq_comm, Nat.ceil_eq_iff hne]
    constructor
    · rw [lt_div_iff₀ hcq]
      exact_mod_cast key.2
    · rw [div_le_iff₀ hcq]
      exact_mod_cast key.1

/-- C1: over the size budget the server split plans exactly ceil(D / C)
chunks (C = 30 minutes = 1800 s), chunk i covering the window
[i * C, min ((i + 1) * C) D); the windows are pairwise non-overlapping, cover
[0, D) exactly once, and the chunks come back in plan-index order with any
chunk that fails to materialize dropped and the sequence compacted.  The
client split likewise carves the decoded buffer into exactly
ceil(totalSamples / chunkSamples) chunks (chunkSeconds = 5 minutes at the
buffer's sample rate), chunk k holding samples
[k * chunkSamples, min ((k + 1) * chunkSamples) totalSamples). -/
theorem splitAudio_plan_correct (audioSize : ℕ) (D : ℚ) (mat : ℕ → Bool)
    (hsize : MAX_CHUNK_BYTES < audioSize) (_hD : 0 < D) :
    (splitAudio audioSize D mat =
      ((List.range (numChunks D)).filter mat).map Seg.chunk) ∧
    ((∀ i, mat i = true) → (splitAudio audioSize D mat).length = numChunks D) ∧
    (∀ i j : ℕ, i < j → chunkEnd D i ≤ chunkStart j) ∧
    (∀ x : ℚ, 0 ≤ x → x < D →
      ∃! i : ℕ, i < numChunks D ∧ chunkStart i ≤ x ∧ x < chunkEnd D i) ∧
    (∀ t sr cs : ℕ, 0 < cs * sr →
      splitAudioBuffer t sr cs =
        (List.range (numChunksSamples t (cs * sr))).map
          (fun k => (k * (cs * sr), min (cs * sr) (t - k * (cs * sr))))) ∧
    (∀ t c : ℕ, 0 < c → numChunksSamples t c = ⌈(t : ℚ) / (c : ℚ)⌉₊) := by
  have hC := chunkDuration_pos
  have ha : splitAudio audioSize D mat =
      ((List.range (numChunks D)).filter mat).map Seg.chunk := by
    unfold splitAudio
    rw [if_neg (by omega)]
  have hover : ∀ i j : ℕ, i < j → chunkEnd D i ≤ chunkStart j := by
    intro i j hij
    unfold chunkEnd chunkStart
    refine le_trans (min_le_left _ _) ?_
    have hcast : ((i : ℚ) + 1) ≤ (j : ℚ) := by exact_mod_cast hij
    exact mul_le_mul_of_nonneg_right hcast hC.le
  have hcov : ∀ x : ℚ, 0 ≤ x → x < D →
      ∃! i : ℕ, i < numChunks D ∧ chunkStart i ≤ x ∧ x < chunkEnd D i := by
    intro x hx hxD
    have hdiv_nonneg : 0 ≤ x / chunkDuration := div_nonneg hx hC.le
    have hfloor_le : ((⌊x / chunkDuration⌋₊ : ℕ) : ℚ) ≤ x / chunkDuration :=
      Nat.floor_le hdiv_nonneg
    have hlt_floor : x / chunkDuration < (⌊x / chunkDuration⌋₊ : ℕ) + 1 :=
      Nat.lt_floor_add_one _
    have hstart : chunkStart ⌊x / chunkDuration⌋₊ ≤ x := by
      unfold chunkStart
      rw [← le_div_iff₀ hC]
      exact hfloor_le
    have hend : x < chunkEnd D ⌊x / chunkDuration⌋₊ := by
      unfold chunkEnd
      refine lt_min ?_ hxD
      rw [← div_lt_iff₀ hC]
      exact hlt_floor
    have hidx : ⌊x / chunkDuration⌋₊ < numChunks D := by
      by_contra hcon
      push_neg at hcon
      have h1 : D / chunkDuration ≤ ((numChunks D : ℕ) : ℚ) := by
        unfold numChunks
        exact Nat.le_ceil _
      have h2 : ((numChunks D : ℕ) : ℚ) ≤ ((⌊x / chunkDuration⌋₊ : ℕ) : ℚ) := by
        exact_mod_cast hcon
      have h3 : D / chunkDuration ≤ x / chunkDuration :=
        le_trans h1 (le_trans h2 hfloor_le)
      have h4 : D ≤ x := (div_le_div_iff_of_pos_right hC).mp h3
      linarith
    refine ⟨⌊x / chunkDuration⌋₊, ⟨hidx, hstart, hend⟩, ?_⟩
    intro j hj
    rcases lt_trichotomy j ⌊x / chunkDuration⌋₊ with h | h | h
    · exfalso
      have hd := hover j ⌊x / chunkDuration⌋₊ h
      have h5 := hj.2.2
      linarith
    · exact h
    · exfalso
      have hd := hover ⌊x / chunkDuration⌋₊ j h
      have h5 := hj.2.1
      linarith
  have hclient : ∀ t sr cs : ℕ, 0 < cs * sr →
      splitAudioBuffer t sr cs =
        (List.range (numChunksSamples t (cs * sr))).map
          (fun k => (k * (cs * sr), min (cs * sr) (t - k * (cs * sr)))) := by
    intro t sr cs hpos
    unfold splitAudioBuffer
    have h := splitAudioBufferGo_eq (cs * sr) hpos (t - 0) t 0 rfl
    simpa using h
  refine ⟨ha, ?_, hover, hcov, hclient, fun t c hc => numChunksSamples_eq_ceil t c hc⟩
  intro hmat
  rw [ha, List.length_map,
    show (List.range (numChunks D)).filter mat = List.range (numChunks D) from
      List.filter_eq_self.mpr (fun a _ => hmat a),
    List.length_range]

/-- Witness for the C1 theorem: a 45-minute (2700 s) over-budget asset is
planned as 2 chunks, the point 2000 s falls in exactly one window, and a
10-sample buffer with 4-sample chunks splits into the three expected chunks. -/
theorem splitAudio_plan_correct_witness :
    numChunks 2700 = 2 ∧
    splitAudio (MAX_CHUNK_BYTES + 1) 2700 (fun _ => true) =
      [Seg.chunk 0, Seg.chunk 1] ∧
    (splitAudio (MAX_CHUNK_BYTES + 1) 2700 (fun _ => true)).length = numChunks 2700 ∧
    chunkEnd 2700 0 ≤ chunkStart 1 ∧
    (∃! i : ℕ, i < numChunks 2700 ∧ chunkStart i ≤ 2000 ∧ (2000 : ℚ) < chunkEnd 2700 i) ∧
    splitAudioBuffer 10 1 4 = [(0, 4), (4, 4), (8, 2)] ∧
    numChunksSamples 10 4 = ⌈(10 : ℚ) / (4 : ℚ)⌉₊ := by
  have h := splitAudio_plan_correct (MAX_CHUNK_BYTES + 1) 2700 (fun _ => true)
    (by norm_num [MAX_CHUNK_BYTES]) (by norm_num)
  have hn : numChunks 2700 = 2 := by
    unfold numChunks chunkDuration CHUNK_MINUTES
    rw [Nat.ceil_eq_iff (by norm_num)]
    constructor <;> norm_num
  refine ⟨hn, ?_, h.2.1 (fun _ => rfl), h.2.2.1 0 1 (by norm_num),
    h.2.2.2.1 2000 (by norm_num) (by norm_num), ?_, h.2.2.2.2.2 10 4 (by norm_num)⟩
  · rw [h.1, hn]
    decide
  · rw [h.2.2.2.2.1 10 1 4 (by norm_num)]
    decide

/-- C2 counterexample: split can return zero segments — the client splitter
returns no chunk for an empty decoded buffer, and the server splitter returns
no chunk for an over-budget asset none of whose planned chunks materializes —
so the claim that split returns at least one segment for every asset fails on
the code. -/
theorem split_min_count_counterexample :
    splitAudioBuffer 0 16000 300 = [] ∧
    splitAudio (MAX_CHUNK_BYTES + 1) 2700 (fun _ => false) = [] := by
  constructor
  · simp [splitAudioBuffer, splitAudioBufferGo]
  · simp only [splitAudio]
    rw [if_neg (by norm_num [MAX_CHUNK_BYTES])]
    simp

/-- C2 (amended): the server split of an asset within the size budget is
exactly one segment, the original asset used verbatim; an over-budget asset
yields at least one segment provided some planned chunk materializes; and the
client split yields at least one segment provided the decoded buffer is
non-empty.  (An empty buffer, or an over-budget asset all of whose chunks fail
to materialize, yields zero segments.) -/
theorem split_min_count_amended (audioSize : ℕ) (D : ℚ) (mat : ℕ → Bool)
    (t sr cs : ℕ) :
    (audioSize ≤ MAX_CHUNK_BYTES → splitAudio audioSize D mat = [Seg.whole]) ∧
    (MAX_CHUNK_BYTES < audioSize → (∃ i, i < numChunks D ∧ mat i = true) →
      1 ≤ (splitAudio audioSize D mat).length) ∧
    (0 < t → 0 < cs * sr → 1 ≤ (splitAudioBuffer t sr cs).length) := by
  refine ⟨?_, ?_, ?_⟩
  · intro h
    simp only [splitAudio]
    rw [if_pos h]
  · intro h hex
    obtain ⟨i, hi, hmat⟩ := hex
    simp only [splitAudio]
    rw [if_neg (by omega), List.length_map]
    have hmem : i ∈ (List.range (numChunks D)).filter mat :=
      List.mem_filter.mpr ⟨List.mem_range.mpr hi, hmat⟩
    have hpos := List.length_pos.mpr (List.ne_nil_of_mem hmem)
    omega
  · intro ht hc
    unfold splitAudioBuffer
    rw [splitAudioBufferGo, dif_pos ⟨ht, hc⟩]
    simp

/-- Witness for the amended C2 theorem at concrete inputs. -/
theorem split_min_count_amended_witness :
    splitAudio 0 0 (fun _ => true) = [Seg.whole] ∧
    1 ≤ (splitAudio (MAX_CHUNK_BYTES + 1) 2700 (fun _ => true)).length ∧
    1 ≤ (splitAudioBuffer 5 16000 300).length := by
  have h1 := split_min_count_amended 0 0 (fun _ => true) 5 16000 300
  have h2 := split_min_count_amended (MAX_CHUNK_BYTES + 1) 2700 (fun _ => true) 5 16000 300
  have hpos : 0 < numChunks 2700 := by
    unfold numChunks
    rw [Nat.ceil_pos]
    norm_num [chunkDuration, CHUNK_MINUTES]
  exact ⟨h1.1 (by norm_num [MAX_CHUNK_BYTES]),
    h2.2.1 (by norm_num [MAX_CHUNK_BYTES]) ⟨0, hpos, rfl⟩,
    h1.2.2 (by norm_num) (by norm_num)⟩

lemma transcribeAllGo_ok (backend : ℕ → GeminiResponse) :
    ∀ n i, (∀ k, k < n → (backend (i + k)).ok = true) →
      transcribeAllGo backend i n =
        Except.ok ((List.range n).map
          (fun k => (backend (i + k)).candidateText.getD EMPTY_RESULT_MSG)) := by
  intro n
  induction n with
  | zero => intro i _; rfl
  | succ m ih =>
    intro i h
    have h0 : (backend i).ok = true := by simpa using h 0 (Nat.succ_pos m)
    simp only [transcribeAllGo, transcribeChunk, h0, if_true]
    rw [ih (i + 1) (fun k hk => by
      rw [show i + 1 + k = i + (k + 1) from by omega]
      exact h (k + 1) (by omega))]
    simp only [Except.map, List.range_succ_eq_map, List.map_cons, List.map_map]
    refine congrArg Except.ok ?_
    refine congrArg₂ List.cons (by simp) ?_
    apply List.map_congr_left
    intro k hk
    simp only [Function.comp_apply]
    rw [show i + 1 + k = i + (k + 1) from by omega]

lemma transcribeAllGo_error (backend : ℕ → GeminiResponse) :
    ∀ j n i, j < n → (∀ k, k < j → (backend (i + k)).ok = true) →
      (backend (i + j)).ok = false →
      transcribeAllGo backend i n =
        Except.error ((backend (i + j)).errMsg.getD TRANSCRIBE_FAIL_MSG) := by
  intro j
  induction j with
  | zero =>
    intro n i hn _ hf
    cases n with
    | zero => omega
    | succ m =>
      have hf0 : (backend i).ok = false := by simpa using hf
      simp [transcribeAllGo, transcribeChunk, hf0]
  | succ j ih =>
    intro n i hn hprev hf
    cases n with
    | zero => omega
    | succ m =>
      have h0 : (backend i).ok = true := by simpa using hprev 0 (Nat.succ_pos j)
      simp only [transcribeAllGo, transcribeChunk, h0, if_true]
      rw [ih m (i + 1) (by omega)
        (fun k hk => by
          rw [show i + 1 + k = i + (k + 1) from by omega]
          exact hprev (k + 1) (by omega))
        (by rw [show i + 1 + j = i + (j + 1) from by omega]; exact hf)]
      simp only [Except.map]
      rw [show i + 1 + j = i + (j + 1) from by omega]

lemma postRun_result_of_ok (mime : String) (extractOk probeOk : Bool)
    (audioSize : ℕ) (D : ℚ) (mat encodeOk : ℕ → Bool)
    (backend : ℕ → GeminiResponse) (chunkFiles : List TempPath) (segs : List Seg)
    (texts : List String)
    (hm : startsWithStr mime "video/" = true) (he : extractOk = true)
    (hs : splitAudioRun audioSize D probeOk mat encodeOk = (chunkFiles, Except.ok segs))
    (htr : transcribeAll backend segs.length = Except.ok texts) :
    (postRun mime extractOk probeOk audioSize D mat encodeOk backend).result =
      ApiResult.success (joinResults texts) segs.length := by
  unfold postRun
  rw [if_neg (by simp [hm]), if_neg (by simp [he]), hs]
  dsimp only
  rw [htr]

lemma postRun_result_of_error (mime : String) (extractOk probeOk : Bool)
    (audioSize : ℕ) (D : ℚ) (mat encodeOk : ℕ → Bool)
    (backend : ℕ → GeminiResponse) (chunkFiles : List TempPath) (segs : List Seg)
    (e : String)
    (hm : startsWithStr mime "video/" = true) (he : extractOk = true)
    (hs : splitAudioRun audioSize D probeOk mat encodeOk = (chunkFiles, Except.ok segs))
    (htr : transcribeAll backend segs.length = Except.error e) :
    (postRun mime extractOk probeOk audioSize D mat encodeOk backend).result =
      ApiResult.failure e := by
  unfold postRun
  rw [if_neg (by simp [hm]), if_neg (by simp [he]), hs]
  dsimp only
  rw [htr]

/-- C7: on success the route's result carries the full transcript — the joined
texts of all segments in order — together with the segment count; on a failure
at segment j the result is exactly the failure payload carrying that segment's
backend error message, whatever texts segments 0..j-1 produced, so no partial
transcript is ever returned. -/
theorem result_shape_correct (mime : String) (extractOk probeOk : Bool)
    (audioSize : ℕ) (D : ℚ) (mat encodeOk : ℕ → Bool)
    (backend : ℕ → GeminiResponse) (chunkFiles : List TempPath) (segs : List Seg)
    (hm : startsWithStr mime "video/" = true) (he : extractOk = true)
    (hs : splitAudioRun audioSize D probeOk mat encodeOk = (chunkFiles, Except.ok segs)) :
    ((∀ k, k < segs.length → (backend k).ok = true) →
      (postRun mime extractOk probeOk audioSize D mat encodeOk backend).result =
        ApiResult.success
          (joinResults ((List.range segs.length).map
            (fun k => (backend k).candidateText.getD EMPTY_RESULT_MSG)))
          segs.length) ∧
    (∀ j, j < segs.length → (∀ k, k < j → (backend k).ok = true) →
      (backend j).ok = false →
      (postRun mime extractOk probeOk audioSize D mat encodeOk backend).result =
        ApiResult.failure ((backend j).errMsg.getD TRANSCRIBE_FAIL_MSG)) := by
  constructor
  · intro hok
    have htr : transcribeAll backend segs.length =
        Except.ok ((List.range segs.length).map
          (fun k => (backend k).candidateText.getD EMPTY_RESULT_MSG)) := by
      have h := transcribeAllGo_ok backend segs.length 0
        (fun k hk => by simpa using hok k hk)
      simpa [transcribeAll] using h
    exact postRun_result_of_ok mime extractOk probeOk audioSize D mat encodeOk
      backend chunkFiles segs _ hm he hs htr
  · intro j hj hprev hf
    have htr : transcribeAll backend segs.length =
        Except.error ((backend j).errMsg.getD TRANSCRIBE_FAIL_MSG) := by
      have h := transcribeAllGo_error backend j segs.length 0 hj
        (fun k hk => by simpa using hprev k hk) (by simpa using hf)
      simpa [transcribeAll] using h
    exact postRun_result_of_error mime extractOk probeOk audioSize D mat encodeOk
      backend chunkFiles segs _ hm he hs htr

/-- Witness for the C7 theorem: a small under-budget video transcribed as one
segment succeeds with the joined transcript and count 1, and the same request
with a failing backend surfaces only the backend's error message. -/
theorem result_shape_correct_witness :
    (postRun "video/mp4" true true 0 0 (fun _ => true) (fun _ => true)
      (fun _ => readyResponse)).result = ApiResult.success "本文" 1 ∧
    (postRun "video/mp4" true true 0 0 (fun _ => true) (fun _ => true)
      (fun _ => notReadyResponse)).result =
      ApiResult.failure "The File is not in an ACTIVE state and usage is not allowed." := by
  have hs : splitAudioRun 0 0 true (fun _ => true) (fun _ => true) =
      ([], Except.ok [Seg.whole]) := by
    unfold splitAudioRun
    rw [if_pos (by norm_num [MAX_CHUNK_BYTES])]
  have h1 := result_shape_correct "video/mp4" true true 0 0 (fun _ => true)
    (fun _ => true) (fun _ => readyResponse) [] [Seg.whole] (by decide) rfl hs
  have h2 := result_shape_correct "video/mp4" true true 0 0 (fun _ => true)
    (fun _ => true) (fun _ => notReadyResponse) [] [Seg.whole] (by decide) rfl hs
  constructor
  · have := h1.1 (fun k _ => rfl)
    simpa [joinResults, readyResponse] using this
  · have := h2.2 0 (by norm_num) (fun k hk => absurd hk (by omega)) rfl
    simpa [notReadyResponse] using this

/-- C8 counterexample: an asset declaring the audio MIME type audio/mpeg — a
type the claim says must be accepted — is rejected by the server route's gate
with the InvalidInput message, because only types starting with video/ pass;
the client-side picker accepts the same type. -/
theorem mime_gate_counterexample :
    (postRun "audio/mpeg" true true 0 0 (fun _ => true) (fun _ => true)
      (fun _ => readyResponse)).result = ApiResult.failure MIME_ERROR_MSG ∧
    handleFileAccepts "audio/mpeg" = true := by
  constructor
  · have hsw : startsWithStr "audio/mpeg" "video/" = false := by decide
    unfold postRun
    rw [if_pos (by simp [hsw])]
  · decide

/-- C8 (amended): the server route rejects a request immediately — before any
temporary file is created or transcription attempted — exactly when the
declared MIME type does not start with video/, so audio-typed assets are
rejected there; the client-side picker instead accepts exactly the audio and
video types. -/
theorem mime_gate_amended (mime : String) (extractOk probeOk : Bool)
    (audioSize : ℕ) (D : ℚ) (mat encodeOk : ℕ → Bool)
    (backend : ℕ → GeminiResponse)
    (hm : startsWithStr mime "video/" = false) :
    postRun mime extractOk probeOk audioSize D mat encodeOk backend =
      { result := ApiResult.failure MIME_ERROR_MSG, created := [], tempFiles := [] } ∧
    (∀ m2 : String, startsWithStr m2 "audio/" = true → handleFileAccepts m2 = true) ∧
    (∀ m2 : String, startsWithStr m2 "video/" = true → handleFileAccepts m2 = true) ∧
    (∀ m2 : String, startsWithStr m2 "video/" = false →
      startsWithStr m2 "audio/" = false → handleFileAccepts m2 = false) := by
  refine ⟨?_, ?_, ?_, ?_⟩
  · unfold postRun
    rw [if_pos (by simp [hm])]
  · intro m2 h
    simp [handleFileAccepts, h]
  · intro m2 h
    simp [handleFileAccepts, h]
  · intro m2 h1 h2
    simp [handleFileAccepts, h1, h2]

/-- Witness for the amended C8 theorem at concrete MIME types. -/
theorem mime_gate_amended_witness :
    postRun "audio/wav" true true 0 0 (fun _ => true) (fun _ => true)
      (fun _ => readyResponse) =
      { result := ApiResult.failure MIME_ERROR_MSG, created := [], tempFiles := [] } ∧
    handleFileAccepts "audio/wav" = true ∧
    handleFileAccepts "text/plain" = false := by
  have h := mime_gate_amended "audio/wav" true true 0 0 (fun _ => true)
    (fun _ => true) (fun _ => readyResponse) (by decide)
  exact ⟨h.1, h.2.1 "audio/wav" (by decide), h.2.2.2 "text/plain" (by decide) (by decide)⟩

lemma splitLoop_all_ok (mat encodeOk : ℕ → Bool) (henc : ∀ i, encodeOk i = true) :
    ∀ l : List ℕ, splitLoop mat encodeOk l =
      ((l.filter mat).map TempPath.chunk, Except.ok ((l.filter mat).map Seg.chunk)) := by
  intro l
  induction l with
  | nil => rfl
  | cons i rest ih =>
    simp only [splitLoop, henc i, if_true, ih]
    by_cases hm : mat i = true
    · simp [hm, List.filter_cons, Except.map]
    · have hm2 : mat i = false := by simpa using hm
      simp [hm2, List.filter_cons, Except.map]

lemma splitAudioRun_error_nil (audioSize : ℕ) (D : ℚ) (probeOk : Bool)
    (mat encodeOk : ℕ → Bool) (henc : ∀ i, encodeOk i = true)
    (cs : List TempPath) (e : String)
    (h : splitAudioRun audioSize D probeOk mat encodeOk = (cs, Except.error e)) :
    cs = [] := by
  unfold splitAudioRun at h
  by_cases hsz : audioSize ≤ MAX_CHUNK_BYTES
  · rw [if_pos hsz] at h
    simp at h
  · rw [if_neg hsz] at h
    by_cases hp : probeOk = true
    · rw [if_pos hp, splitLoop_all_ok mat encodeOk henc] at h
      simp at h
    · have hp2 : probeOk = false := by simpa using hp
      rw [if_neg (by simp [hp2])] at h
      exact (Prod.mk.injEq _ _ _ _ ▸ h).1.symm

lemma splitAudioRun_ok_files (audioSize : ℕ) (D : ℚ) (probeOk : Bool)
    (mat encodeOk : ℕ → Bool) (henc : ∀ i, encodeOk i = true)
    (cs : List TempPath) (segs : List Seg)
    (h : splitAudioRun audioSize D probeOk mat encodeOk = (cs, Except.ok segs)) :
    cs = segs.filterMap segTempPath := by
  unfold splitAudioRun at h
  by_cases hsz : audioSize ≤ MAX_CHUNK_BYTES
  · rw [if_pos hsz] at h
    obtain ⟨h1, h2⟩ := Prod.mk.injEq _ _ _ _ ▸ h
    have h3 : segs = [Seg.whole] := by
      have := h2
      injection this with h4
      exact h4.symm
    rw [← h1, h3]
    rfl
  · rw [if_neg hsz] at h
    by_cases hp : probeOk = true
    · rw [if_pos hp, splitLoop_all_ok mat encodeOk henc] at h
      obtain ⟨h1, h2⟩ := Prod.mk.injEq _ _ _ _ ▸ h
      have h3 : segs = (List.filter mat (List.range (numChunks D))).map Seg.chunk := by
        injection h2 with h4
        exact h4.symm
      rw [← h1, h3, List.filterMap_map,
        show segTempPath ∘ Seg.chunk = some ∘ TempPath.chunk from rfl,
        List.filterMap_eq_map]
    · have hp2 : probeOk = false := by simpa using hp
      rw [if_neg (by simp [hp2])] at h
      simp at h

lemma leftoverFiles_eq_nil (r : PostRun) (h : ∀ p ∈ r.created, p ∈ r.tempFiles) :
    leftoverFiles r = [] := by
  unfold leftoverFiles
  rw [List.filter_eq_nil_iff]
  intro p hp
  simp [h p hp]

/-- C9 (amended): every temporary file the route registers in tempFiles — the
saved video, the extracted audio, and the chunk files once splitting has
completed — is deleted by the finally block on every exit path; in particular,
whenever no per-chunk encoder invocation throws mid-split, the request leaves
no temporary file behind on any path, success or terminal failure.  (A
mid-split encoder failure orphans the chunk files already produced: they are
created before the chunkPaths list is registered; see the counterexample.) -/
theorem cleanup_amended (mime : String) (extractOk probeOk : Bool)
    (audioSize : ℕ) (D : ℚ) (mat encodeOk : ℕ → Bool)
    (backend : ℕ → GeminiResponse)
    (henc : ∀ i, encodeOk i = true) :
    leftoverFiles (postRun mime extractOk probeOk audioSize D mat encodeOk backend) = [] := by
  apply leftoverFiles_eq_nil
  by_cases hm : startsWithStr mime "video/" = true
  · by_cases he : extractOk = true
    · rcases hsplit : splitAudioRun audioSize D probeOk mat encodeOk with ⟨cs, res⟩
      cases res with
      | error e =>
        have hcs : cs = [] :=
          splitAudioRun_error_nil audioSize D probeOk mat encodeOk henc cs e hsplit
        subst hcs
        unfold postRun
        rw [if_neg (by simp [hm]), if_neg (by simp [he]), hsplit]
        intro p hp
        simp only [List.mem_cons, List.not_mem_nil, or_false] at hp
        simp [hp]
      | ok segs =>
        have hcs : cs = segs.filterMap segTempPath :=
          splitAudioRun_ok_files audioSize D probeOk mat encodeOk henc cs segs hsplit
        subst hcs
        unfold postRun
        rw [if_neg (by simp [hm]), if_neg (by simp [he]), hsplit]
        dsimp only
        cases htr : transcribeAll backend segs.length with
        | error e =>
          dsimp only
          intro p hp
          simp only [List.mem_cons] at hp
          simp only [List.mem_append, List.mem_cons, List.not_mem_nil, or_false]
          tauto
        | ok texts =>
          dsimp only
          intro p hp
          simp only [List.mem_cons] at hp
          simp only [List.mem_append, List.mem_cons, List.not_mem_nil, or_false]
          tauto
    · have he2 : extractOk = false := by simpa using he
      unfold postRun
      rw [if_neg (by simp [hm]), if_pos (by simp [he2])]
      intro p hp
      simp only [List.mem_cons, List.not_mem_nil, or_false] at hp
      simp [hp]
  · have hm2 : startsWithStr mime "video/" = false := by simpa using hm
    unfold postRun
    rw [if_pos (by simp [hm2])]
    intro p hp
    simp at hp

/-- Witness for the amended C9 theorem on a representative run of every path:
an over-budget 45-minute video with all chunk encodings succeeding leaves no
temporary file behind. -/
theorem cleanup_amended_witness :
    leftoverFiles (postRun "video/mp4" true true (MAX_CHUNK_BYTES + 1) 2700
      (fun _ => true) (fun _ => true) (fun _ => notReadyResponse)) = [] ∧
    leftoverFiles (postRun "video/mp4" true true 0 0
      (fun _ => true) (fun _ => true) (fun _ => readyResponse)) = [] := by
  exact ⟨cleanup_amended "video/mp4" true true (MAX_CHUNK_BYTES + 1) 2700
      (fun _ => true) (fun _ => true) (fun _ => notReadyResponse) (fun _ => rfl),
    cleanup_amended "video/mp4" true true 0 0
      (fun _ => true) (fun _ => true) (fun _ => readyResponse) (fun _ => rfl)⟩

/-- C9 counterexample: an over-budget 45-minute video whose second chunk
encoding throws leaves the already-encoded first chunk file on disk after the
request completes — the file was created during splitting but never registered
in tempFiles, so the finally block does not delete it. -/
theorem cleanup_counterexample :
    leftoverFiles (postRun "video/mp4" true true (MAX_CHUNK_BYTES + 1) 2700
      (fun _ => true) (fun i => i == 0) (fun _ => readyResponse)) =
      [TempPath.chunk 0] := by
  have hn : numChunks 2700 = 2 := by
    unfold numChunks chunkDuration CHUNK_MINUTES
    rw [Nat.ceil_eq_iff (by norm_num)]
    constructor <;> norm_num
  have hsplit : splitAudioRun (MAX_CHUNK_BYTES + 1) 2700 true (fun _ => true)
      (fun i => i == 0) = ([TempPath.chunk 0], Except.error CHUNK_ENCODE_FAIL_MSG) := by
    unfold splitAudioRun
    rw [if_neg (by norm_num [MAX_CHUNK_BYTES]), if_pos rfl, hn]
    rw [show List.range 2 = [0, 1] from rfl]
    simp [splitLoop, Except.map]
  unfold leftoverFiles postRun
  rw [if_neg (by decide), if_neg (by simp), hsplit]
  decide

lemma asciiBytes_length (s : String) : (asciiBytes s).length = s.length := by
  simp only [asciiBytes, List.length_map]
  exact String.length_data s

lemma wavHeader_length (numChannels sampleRate dataLength : ℕ) :
    (wavHeader numChannels sampleRate dataLength).length = 44 := by
  simp only [wavHeader, List.length_append, asciiBytes_length, u32le, u16le,
    List.length_cons, List.length_nil]
  decide

lemma pcm_length (samples : List ℚ) :
    ((samples.map (fun s => i16le (encodeSample s))).flatten).length =
      2 * samples.length := by
  induction samples with
  | nil => rfl
  | cons x xs ih =>
    simp only [List.map_cons, List.flatten_cons, List.length_append, ih,
      List.length_cons]
    rw [show (i16le (encodeSample x)).length = 2 from rfl]
    omega

/-- C10: audioBufferToWav produces exactly 44 + 2 * n bytes for an input of n
samples; every sample is clamped to [-1, 1] before encoding, negative clamped
values are scaled by 32768 and non-negative ones by 32767, and every encoded
value lies in [-32768, 32767], so the signed 16-bit write never overflows. -/
theorem audioBufferToWav_correct (numChannels sampleRate : ℕ) (samples : List ℚ) :
    (audioBufferToWav numChannels sampleRate samples).length = 44 + 2 * samples.length ∧
    (∀ s : ℚ, -1 ≤ clampSample s ∧ clampSample s ≤ 1) ∧
    (∀ s : ℚ, clampSample s < 0 → scaleSample s = clampSample s * 32768) ∧
    (∀ s : ℚ, 0 ≤ clampSample s → scaleSample s = clampSample s * 32767) ∧
    (∀ s : ℚ, -32768 ≤ encodeSample s ∧ encodeSample s ≤ 32767) := by
  have hclamp : ∀ s : ℚ, -1 ≤ clampSample s ∧ clampSample s ≤ 1 := by
    intro s
    unfold clampSample
    exact ⟨le_max_left _ _, max_le (by norm_num) (min_le_left _ _)⟩
  refine ⟨?_, hclamp, ?_, ?_, ?_⟩
  · unfold audioBufferToWav
    rw [List.length_append, wavHeader_length, pcm_length]
  · intro s h
    unfold scaleSample
    rw [if_pos h]
  · intro s h
    unfold scaleSample
    rw [if_neg (not_lt.mpr h)]
  · intro s
    obtain ⟨hcl, hcu⟩ := hclamp s
    by_cases hc : clampSample s < 0
    · have hs : scaleSample s = clampSample s * 32768 := by
        unfold scaleSample
        rw [if_pos hc]
      have hq1 : (-32768 : ℚ) ≤ scaleSample s := by
        rw [hs]
        linarith
      have hq2 : scaleSample s < 0 := by
        rw [hs]
        nlinarith
      have he : encodeSample s = ⌈scaleSample s⌉ := by
        unfold encodeSample truncToInt
        rw [if_pos hq2]
      constructor
      · rw [he]
        have h1 : (⌈(-32768 : ℚ)⌉ : ℤ) ≤ ⌈scaleSample s⌉ := Int.ceil_mono hq1
        have h2 : (⌈(-32768 : ℚ)⌉ : ℤ) = -32768 := by
          rw [show (-32768 : ℚ) = ((-32768 : ℤ) : ℚ) from by norm_num]
          exact Int.ceil_intCast _
        omega
      · rw [he]
        have h1 : ⌈scaleSample s⌉ ≤ 0 := Int.ceil_le.mpr (by exact_mod_cast hq2.le)
        omega
    · push_neg at hc
      have hs : scaleSample s = clampSample s * 32767 := by
        unfold scaleSample
        rw [if_neg (not_lt.mpr hc)]
      have hq1 : 0 ≤ scaleSample s := by
        rw [hs]
        exact mul_nonneg hc (by norm_num)
      have hq2 : scaleSample s ≤ 32767 := by
        rw [hs]
        nlinarith
      have he : encodeSample s = ⌊scaleSample s⌋ := by
        unfold encodeSample truncToInt
        rw [if_neg (not_lt.mpr hq1)]
      constructor
      · rw [he]
        have h1 : (0 : ℤ) ≤ ⌊scaleSample s⌋ := Int.floor_nonneg.mpr hq1
        omega
      · rw [he]
        have h1 : (⌊scaleSample s⌋ : ℚ) ≤ 32767 := le_trans (Int.floor_le _) hq2
        exact_mod_cast h1

/-- Witness for the C10 theorem at a concrete two-sample buffer. -/
theorem audioBufferToWav_correct_witness :
    (audioBufferToWav 1 16000 [-(1 : ℚ) / 2, 3 / 4]).length = 44 + 2 * 2 ∧
    scaleSample (-(1 : ℚ) / 2) = clampSample (-(1 : ℚ) / 2) * 32768 ∧
    scaleSample (3 / 4 : ℚ) = clampSample (3 / 4 : ℚ) * 32767 ∧
    -32768 ≤ encodeSample (-(1 : ℚ) / 2) ∧ encodeSample (3 / 4 : ℚ) ≤ 32767 := by
  have h := audioBufferToWav_correct 1 16000 [-(1 : ℚ) / 2, 3 / 4]
  have hc1 : clampSample (-(1 : ℚ) / 2) = -(1 : ℚ) / 2 := by
    unfold clampSample
    rw [min_eq_right (by norm_num), max_eq_right (by norm_num)]
  have hc2 : clampSample (3 / 4 : ℚ) = (3 / 4 : ℚ) := by
    unfold clampSample
    rw [min_eq_right (by norm_num), max_eq_right (by norm_num)]
  exact ⟨h.1, h.2.2.1 _ (by rw [hc1]; norm_num), h.2.2.2.1 _ (by rw [hc2]; norm_num),
    (h.2.2.2.2 (-(1 : ℚ) / 2)).1, (h.2.2.2.2 (3 / 4 : ℚ)).2⟩

/-- Witness for the C3 theorem at a concrete two-element result list. -/
theorem joinResults_correct_witness :
    joinResults ["A", "B"] = "A" ++ concatStrings (["B"].map (fun r => SEPARATOR ++ r)) ∧
    (joinResults ["A", "B"]).length = (["A", "B"].map String.length).sum + 2 * 1 := by
  have h := joinResults_correct "A" ["B"]
  exact ⟨h.1, h.2⟩

/-- Witness for the C4 theorem at segments 0 and 1. -/
theorem prompt_variant_correct_witness :
    promptForSegment 0 = PROMPT ∧ promptForSegment 1 = PROMPT_CONTINUATION := by
  have h := prompt_variant_correct
  exact ⟨(h.1 0).mpr rfl, (h.2.1 1).mpr (by norm_num)⟩

end AIText
